import Mathlib

/-!
# Verification of the placement-and-corridor core (CADGinie)

Shallow embedding, over exact rational arithmetic, of the placement and
corridor-synthesis core: `layout_optimizer.py`, the intelligent layout
optimizer (`src/optimizers/intelligent_layout_optimizer.py`), the backup
intelligent optimizer (`Backup/layout/intelligent_optimizer.py`), the
geometry processor (`Backup/geometry/advanced_processor.py`) and the
production engine (`production_engine.py`).

Modelling conventions:
* Islands are axis-aligned rectangles; the polygon primitives the code
  obtains from its external geometry library (shapely) are embedded
  exactly for axis-aligned rectangles: containment, intersection tests,
  intersection areas, and distance comparisons (a Euclidean distance is
  never materialised; `dist < c` is embedded as `sqDist < c ^ 2`, which
  is exact for non-negative `c`).
* Python floats are idealised as rationals.
* The genuinely external or non-deterministic ingredients are passed as
  explicit parameters: random streams (the code's `random.uniform` /
  `random.choice` draws) and the handful of scalar scores computed from
  irrational Euclidean distances (placement preference scores, the
  distribution score, buffered-line areas).  No theorem below depends on
  a particular choice of these parameters unless it instantiates them
  with a concrete value.
* Python's stable `sorted` is embedded as `List.insertionSort`, which is
  stable and therefore produces the same list for the same total
  preorder on keys.
-/

/-- Axis-aligned rectangle with corners `(x1, y1)` and `(x2, y2)`;
the image of shapely's `box(x1, y1, x2, y2)`. -/
structure Rect where
  x1 : ℚ
  y1 : ℚ
  x2 : ℚ
  y2 : ℚ
deriving DecidableEq, Repr

/-- shapely `box` constructor. -/
def boxR (x1 y1 x2 y2 : ℚ) : Rect := ⟨x1, y1, x2, y2⟩

/-- `Polygon.area` of a rectangle. -/
def Rect.area (r : Rect) : ℚ := (r.x2 - r.x1) * (r.y2 - r.y1)

/-- x-coordinate of the centroid. -/
def Rect.cx (r : Rect) : ℚ := (r.x1 + r.x2) / 2

/-- y-coordinate of the centroid. -/
def Rect.cy (r : Rect) : ℚ := (r.y1 + r.y2) / 2

/-- `inner.within(outer)` / `outer.contains(inner)` for rectangles:
every point of `inner` lies in `outer`. -/
def rectContains (outer inner : Rect) : Bool :=
  outer.x1 ≤ inner.x1 && inner.x2 ≤ outer.x2 &&
  outer.y1 ≤ inner.y1 && inner.y2 ≤ outer.y2

/-- `a.intersects(b)` for rectangles (touching boundaries count,
as in shapely). -/
def rectsIntersect (a b : Rect) : Bool :=
  a.x1 ≤ b.x2 && b.x1 ≤ a.x2 && a.y1 ≤ b.y2 && b.y1 ≤ a.y2

/-- `a.intersection(b).area` for rectangles. -/
def interArea (a b : Rect) : ℚ :=
  max 0 (min a.x2 b.x2 - max a.x1 b.x1) * max 0 (min a.y2 b.y2 - max a.y1 b.y1)

/-- Horizontal gap between two rectangles (0 when their x-ranges overlap). -/
def gapX (a b : Rect) : ℚ := max 0 (max (b.x1 - a.x2) (a.x1 - b.x2))

/-- Vertical gap between two rectangles (0 when their y-ranges overlap). -/
def gapY (a b : Rect) : ℚ := max 0 (max (b.y1 - a.y2) (a.y1 - b.y2))

/-- Square of the Euclidean distance `a.distance(b)` between two
rectangles, which is exactly `sqrt (gapX ^ 2 + gapY ^ 2)`. -/
def sqDist (a b : Rect) : ℚ := gapX a b ^ 2 + gapY a b ^ 2

/-- Square of the Euclidean distance between two points. -/
def sqDistPt (p q : ℚ × ℚ) : ℚ := (p.1 - q.1) ^ 2 + (p.2 - q.2) ^ 2

/-- `a.buffer(s).intersects(b.buffer(s))` for rectangles and a
non-negative buffer distance `s`: the two closed buffered sets meet
exactly when the distance between `a` and `b` is at most `2 * s`. -/
def buffersIntersect (a b : Rect) (s : ℚ) : Bool :=
  sqDist a b ≤ (2 * s) ^ 2

/-- `cand.intersects(occ.buffer(s))` for rectangles and `s ≥ 0`:
the unbuffered candidate meets the buffered obstacle exactly when
their distance is at most `s`. -/
def intersectsBufferOf (cand occ : Rect) (s : ℚ) : Bool :=
  sqDist cand occ ≤ s ^ 2

theorem gapX_comm (a b : Rect) : gapX a b = gapX b a := by
  unfold gapX; rw [max_comm (b.x1 - a.x2)]

theorem gapY_comm (a b : Rect) : gapY a b = gapY b a := by
  unfold gapY; rw [max_comm (b.y1 - a.y2)]

theorem sqDist_comm (a b : Rect) : sqDist a b = sqDist b a := by
  unfold sqDist; rw [gapX_comm, gapY_comm]

theorem buffersIntersect_comm (a b : Rect) (s : ℚ) :
    buffersIntersect a b s = buffersIntersect b a s := by
  unfold buffersIntersect; rw [sqDist_comm]

/-! ## `LayoutOptimizer._generate_island_sizes` (`layout_optimizer.py`, lines 47-76)

The island-size generator appends `(width, height)` pairs from the
area-sorted base list until the accumulated area reaches the target,
with a 10% overage allowance, an outer-loop cap of 100 entries, and a
break when no base size fits any more. -/

/-- Default island sizes used when none are provided
(`layout_optimizer.py`, line 51). -/
def defaultDims : List (ℚ × ℚ) := [(3, 2), (4, 3), (5, 4), (2, 2)]

/-- One pass of the inner `for width, height in sorted_dims` loop:
append the dimension whenever `current_area + island_area <= target_area * 1.1`,
and break out of the pass as soon as `current_area >= target_area`
(the break inspects the updated accumulator). -/
def islandPass (target : ℚ) :
    List (ℚ × ℚ) → List (ℚ × ℚ) → ℚ → List (ℚ × ℚ) × ℚ
  | [], islands, current => (islands, current)
  | (w, h) :: rest, islands, current =>
    if current + w * h ≤ target * (11 / 10) then
      if target ≤ current + w * h then (islands ++ [(w, h)], current + w * h)
      else islandPass target rest (islands ++ [(w, h)]) (current + w * h)
    else
      if target ≤ current then (islands, current)
      else islandPass target rest islands current

theorem islandPass_length_le (target : ℚ) (dims islands : List (ℚ × ℚ)) (current : ℚ) :
    (islandPass target dims islands current).1.length ≤ islands.length + dims.length := by
  induction dims generalizing islands current with
  | nil => simp [islandPass]
  | cons d rest ih =>
    obtain ⟨w, h⟩ := d
    simp only [islandPass]
    by_cases happ : current + w * h ≤ target * (11 / 10)
    · rw [if_pos happ]
      split
      · simp
      · have := ih (islands ++ [(w, h)]) (current + w * h)
        simp at this ⊢
        omega
    · rw [if_neg happ]
      split
      · simp
      · have := ih islands current
        simp only [List.length_cons] at this ⊢
        omega

theorem islandPass_length_ge (target : ℚ) (dims islands : List (ℚ × ℚ)) (current : ℚ) :
    islands.length ≤ (islandPass target dims islands current).1.length := by
  induction dims generalizing islands current with
  | nil => simp [islandPass]
  | cons d rest ih =>
    obtain ⟨w, h⟩ := d
    simp only [islandPass]
    by_cases happ : current + w * h ≤ target * (11 / 10)
    · rw [if_pos happ]
      split
      · simp
      · have := ih (islands ++ [(w, h)]) (current + w * h)
        simp only [List.length_append, List.length_singleton] at this
        omega
    · rw [if_neg happ]
      split
      · exact le_refl _
      · exact ih islands current

/-- A pass that does not grow the island list leaves the state unchanged. -/
theorem islandPass_eq_of_length_eq (target : ℚ) (dims islands : List (ℚ × ℚ)) (current : ℚ)
    (hlen : (islandPass target dims islands current).1.length = islands.length) :
    islandPass target dims islands current = (islands, current) := by
  induction dims generalizing islands current with
  | nil => simp [islandPass]
  | cons d rest ih =>
    obtain ⟨w, h⟩ := d
    simp only [islandPass] at hlen ⊢
    by_cases happ : current + w * h ≤ target * (11 / 10)
    · exfalso
      rw [if_pos happ] at hlen
      split at hlen
      · simp at hlen
      · have := islandPass_length_ge target rest (islands ++ [(w, h)]) (current + w * h)
        simp only [List.length_append, List.length_singleton] at this
        omega
    · rw [if_neg happ] at hlen ⊢
      by_cases hstop : target ≤ current
      · rw [if_pos hstop]
      · rw [if_neg hstop] at hlen ⊢
        exact ih islands current hlen

/-- If, after a pass, the accumulated area is still below the target and
some base dimension would still fit under the 10% overage, the pass
appended at least one island (this is what makes the outer loop
terminate, and what bounds the final list length). -/
theorem islandPass_progress (target : ℚ) (dims islands : List (ℚ × ℚ)) (current : ℚ)
    (hlt : (islandPass target dims islands current).2 < target)
    (hany : ∃ d ∈ dims,
      (islandPass target dims islands current).2 + d.1 * d.2 ≤ target * (11 / 10)) :
    islands.length < (islandPass target dims islands current).1.length := by
  induction dims generalizing islands current with
  | nil =>
    obtain ⟨d, hd, -⟩ := hany
    simp at hd
  | cons e rest ih =>
    obtain ⟨w, h⟩ := e
    simp only [islandPass] at hlt hany ⊢
    by_cases happ : current + w * h ≤ target * (11 / 10)
    · rw [if_pos happ] at hlt hany ⊢
      split
      · simp
      · have := islandPass_length_ge target rest (islands ++ [(w, h)]) (current + w * h)
        simp only [List.length_append, List.length_singleton] at this
        omega
    · rw [if_neg happ] at hlt hany ⊢
      by_cases hstop : target ≤ current
      · rw [if_pos hstop] at hlt
        exact absurd hlt (not_lt.mpr hstop)
      · rw [if_neg hstop] at hlt hany ⊢
        rcases Nat.lt_or_ge islands.length (islandPass target rest islands current).1.length with hl | hl
        · exact hl
        · have hlen : (islandPass target rest islands current).1.length = islands.length :=
            Nat.le_antisymm hl (islandPass_length_ge _ _ _ _)
          have heq := islandPass_eq_of_length_eq target rest islands current hlen
          obtain ⟨d, hd, hfit⟩ := hany
          rcases List.mem_cons.mp hd with rfl | hd'
          · rw [heq] at hfit
            exact absurd hfit happ
          · exact ih islands current hlt ⟨d, hd', hfit⟩

/-- The outer `while current_area < target_area and len(islands) < 100`
loop of `_generate_island_sizes`, written with explicit fuel so that it
evaluates inside the kernel; `islandLoop_fuel_stable` below shows that
any fuel covering `100 - islands.length` gives the same result, i.e.
the source's unbounded `while` loop terminates with this value. -/
def islandLoop (dims : List (ℚ × ℚ)) (target : ℚ) :
    Nat → List (ℚ × ℚ) → ℚ → List (ℚ × ℚ)
  | 0, islands, _ => islands
  | fuel + 1, islands, current =>
    if current < target ∧ islands.length < 100 then
      if (islandPass target dims islands current).2 < target ∧
          ¬ ∃ d ∈ dims,
            (islandPass target dims islands current).2 + d.1 * d.2 ≤ target * (11 / 10) then
        (islandPass target dims islands current).1
      else
        islandLoop dims target fuel
          (islandPass target dims islands current).1
          (islandPass target dims islands current).2
    else islands

/-- In the recursive case of `islandLoop` the pass has appended at least
one island. -/
theorem islandLoop_progress (dims : List (ℚ × ℚ)) (target : ℚ)
    (islands : List (ℚ × ℚ)) (current : ℚ)
    (hguard : current < target)
    (hbrk : ¬ ((islandPass target dims islands current).2 < target ∧
      ¬ ∃ d ∈ dims,
        (islandPass target dims islands current).2 + d.1 * d.2 ≤ target * (11 / 10))) :
    islands.length < (islandPass target dims islands current).1.length := by
  rcases Decidable.em ((islandPass target dims islands current).2 < target) with hlt | hge
  · have hany : ∃ d ∈ dims,
        (islandPass target dims islands current).2 + d.1 * d.2 ≤ target * (11 / 10) := by
      by_contra hno
      exact hbrk ⟨hlt, hno⟩
    exact islandPass_progress target dims islands current hlt hany
  · rcases Nat.lt_or_ge islands.length (islandPass target dims islands current).1.length with h | h
    · exact h
    · exfalso
      have hlen : (islandPass target dims islands current).1.length = islands.length :=
        Nat.le_antisymm h (islandPass_length_ge _ _ _ _)
      have heq := islandPass_eq_of_length_eq target dims islands current hlen
      rw [heq] at hge
      exact hge hguard

/-- One more unit of fuel never changes the result once the fuel covers
`100 - islands.length`: the embedded `while` loop terminates. -/
theorem islandLoop_fuel_stable (dims : List (ℚ × ℚ)) (target : ℚ) :
    ∀ (fuel : Nat) (islands : List (ℚ × ℚ)) (current : ℚ),
      100 ≤ islands.length + fuel →
      islandLoop dims target (fuel + 1) islands current =
        islandLoop dims target fuel islands current := by
  intro fuel
  induction fuel with
  | zero =>
    intro islands current hle
    simp only [islandLoop]
    rw [if_neg]
    rintro ⟨-, hlen⟩
    omega
  | succ fuel ih =>
    intro islands current hle
    conv_lhs => rw [islandLoop]
    conv_rhs => rw [islandLoop]
    by_cases hguard : current < target ∧ islands.length < 100
    · rw [if_pos hguard, if_pos hguard]
      by_cases hbrk : (islandPass target dims islands current).2 < target ∧
          ¬ ∃ d ∈ dims,
            (islandPass target dims islands current).2 + d.1 * d.2 ≤ target * (11 / 10)
      · rw [if_pos hbrk, if_pos hbrk]
      · rw [if_neg hbrk, if_neg hbrk]
        apply ih
        have := islandLoop_progress dims target islands current hguard.1 hbrk
        omega
    · rw [if_neg hguard, if_neg hguard]

/-- `LayoutOptimizer._generate_island_sizes` (`layout_optimizer.py`,
lines 47-76).  The base list (default when empty) is stably sorted by
area, largest first (`sorted(key=lambda d: d[0]*d[1], reverse=True)`),
then fed to the bounded accumulation loop; fuel 101 is more than the
loop can consume starting from an empty island list. -/
def generate_island_sizes (base_dimensions : List (ℚ × ℚ)) (target : ℚ) : List (ℚ × ℚ) :=
  let base := if base_dimensions = [] then defaultDims else base_dimensions
  islandLoop (base.insertionSort (fun a b => b.1 * b.2 ≤ a.1 * a.2)) target 101 [] 0

/-- The loop keeps at most `max islands.length (99 + dims.length)`
islands: it is entered only with fewer than 100 and a single pass adds
at most one island per base dimension. -/
theorem islandLoop_length_le (dims : List (ℚ × ℚ)) (target : ℚ) :
    ∀ (fuel : Nat) (islands : List (ℚ × ℚ)) (current : ℚ),
      (islandLoop dims target fuel islands current).length ≤
        max islands.length (99 + dims.length) := by
  intro fuel
  induction fuel with
  | zero => intro islands current; simp [islandLoop]
  | succ fuel ih =>
    intro islands current
    rw [islandLoop]
    by_cases hguard : current < target ∧ islands.length < 100
    · rw [if_pos hguard]
      have hpass := islandPass_length_le target dims islands current
      split
      · have := hguard.2
        omega
      · refine le_trans (ih _ _) ?_
        have := hguard.2
        omega
    · rw [if_neg hguard]
      exact le_max_left _ _

theorem islandLoop_fuel_add (dims : List (ℚ × ℚ)) (target : ℚ)
    (fuel : Nat) (islands : List (ℚ × ℚ)) (current : ℚ)
    (hfuel : 100 ≤ islands.length + fuel) :
    ∀ k : Nat, islandLoop dims target (fuel + k) islands current =
      islandLoop dims target fuel islands current := by
  intro k
  induction k with
  | zero => rfl
  | succ k ih =>
    have : fuel + (k + 1) = (fuel + k) + 1 := rfl
    rw [this, islandLoop_fuel_stable dims target (fuel + k) islands current (by omega), ih]

theorem sortDims_replicate (p : ℚ × ℚ) :
    ∀ n : Nat, List.insertionSort (fun a b : ℚ × ℚ => b.1 * b.2 ≤ a.1 * a.2)
      (List.replicate n p) = List.replicate n p := by
  intro n
  induction n with
  | zero => rfl
  | succ n ih =>
    rw [List.replicate_succ, List.insertionSort, ih]
    cases n with
    | zero => rfl
    | succ m =>
      rw [List.replicate_succ, List.orderedInsert, if_pos (le_refl _), ← List.replicate_succ]

/-- A pass over `n` copies of the unit square, starting below the target
by more than `n`, appends all `n` copies. -/
theorem islandPass_replicate_unit (n : Nat) :
    ∀ (islands : List (ℚ × ℚ)) (current : ℚ), current + n < 150 →
      islandPass 150 (List.replicate n ((1 : ℚ), (1 : ℚ))) islands current =
        (islands ++ List.replicate n ((1 : ℚ), (1 : ℚ)), current + n) := by
  induction n with
  | zero => intro islands current h; simp [islandPass]
  | succ n ih =>
    intro islands current h
    have hn : ((n : ℚ)) ≥ 0 := by positivity
    have hcast : ((n + 1 : Nat) : ℚ) = (n : ℚ) + 1 := by push_cast; ring
    rw [hcast] at h
    rw [List.replicate_succ, islandPass]
    rw [if_pos (by linarith : current + 1 * 1 ≤ 150 * (11 / 10))]
    rw [if_neg (by linarith : ¬ (150 : ℚ) ≤ current + 1 * 1)]
    rw [ih (islands ++ [((1 : ℚ), (1 : ℚ))]) (current + 1 * 1) (by linarith)]
    rw [Prod.mk.injEq]
    refine ⟨?_, ?_⟩
    · rw [List.append_assoc, List.singleton_append, ← List.replicate_succ]
    · push_cast; ring

/-- C10 counterexample: 101 copies of the 1×1 island with target area
150 m².  A single pass of the inner loop appends all 101 entries (the
cap `len(islands) < 100` is only consulted between passes), so the
generator returns 101 > 100 island sizes. -/
theorem C10_cap_exceeded :
    ¬ ((generate_island_sizes (List.replicate 101 ((1 : ℚ), (1 : ℚ))) 150).length ≤ 100) := by
  have hne : List.replicate 101 ((1 : ℚ), (1 : ℚ)) ≠ [] := by simp
  have hpass := islandPass_replicate_unit 101 [] 0 (by norm_num)
  simp only [generate_island_sizes]
  rw [if_neg hne, sortDims_replicate ((1 : ℚ), (1 : ℚ)) 101]
  rw [show (101 : Nat) = 100 + 1 from rfl]
  rw [islandLoop]
  rw [if_pos (by constructor <;> norm_num)]
  rw [hpass]
  rw [if_neg (by
    rintro ⟨-, hno⟩
    exact hno ⟨((1 : ℚ), (1 : ℚ)), by simp, by norm_num⟩)]
  rw [islandLoop]
  rw [if_neg (by
    rintro ⟨-, hlen⟩
    simp at hlen)]
  simp

/-- C10: the island-size generation step always terminates — the
embedded `while` loop is fuel-invariant past `100` units — and its
result has at most `99 + max D 4` entries, where `D` is the length of
the supplied base-dimension list (4 base entries are substituted when
the list is empty).  The spec's bound of 100 entries does not hold
(see `C10_cap_exceeded`); the cap is checked only between passes of
the inner loop. -/
theorem C10_island_sizes_terminate_bounded :
    (∀ (base_dimensions : List (ℚ × ℚ)) (target : ℚ) (k : Nat),
      islandLoop
        ((if base_dimensions = [] then defaultDims else base_dimensions).insertionSort
          (fun a b => b.1 * b.2 ≤ a.1 * a.2)) target (101 + k) [] 0 =
        generate_island_sizes base_dimensions target) ∧
    (∀ (base_dimensions : List (ℚ × ℚ)) (target : ℚ),
      (generate_island_sizes base_dimensions target).length ≤
        99 + max base_dimensions.length 4) := by
  constructor
  · intro base target k
    simp only [generate_island_sizes]
    exact islandLoop_fuel_add _ target 101 [] 0 (by simp) k
  · intro base target
    simp only [generate_island_sizes]
    refine le_trans (islandLoop_length_le _ target 101 [] 0) ?_
    rw [List.length_insertionSort]
    by_cases hb : base = []
    · rw [if_pos hb, hb]
      simp [defaultDims]
    · rw [if_neg hb]
      simp only [List.length_nil, Nat.zero_max]
      exact Nat.add_le_add_left (le_max_left base.length 4) 99

/-! ## `LayoutOptimizer._place_grid_based` (`layout_optimizer.py`, lines 109-149)

The grid strategy enumerates candidate boxes on a 0.5 m grid inside the
usable-area bounds, keeps the best-scoring candidate that lies within
the usable area and misses the buffered occupied space, and accumulates
the winner's spacing-buffer into the occupied space. -/

/-- The usable-area polygon as `_place_grid_based` consumes it: its
bounding box (`usable_area.bounds`) plus the external geometry
library's containment test `candidate.within(usable_area)`.  For a
rectangular usable area `within` is `rectContains`; for general
polygons it is whatever shapely computes, so the placement theorems
quantify over it. -/
structure AreaModel where
  minX : ℚ
  minY : ℚ
  maxX : ℚ
  maxY : ℚ
  within : Rect → Bool

/-- The rectangular usable area `u` as an `AreaModel`. -/
def rectArea (u : Rect) : AreaModel :=
  ⟨u.x1, u.y1, u.x2, u.y2, fun r => rectContains u r⟩

/-- Grid coordinates `lo, lo + step, lo + 2*step, ...` for as long as an
island of extent `size` still fits below `hi` — the
`while y + h <= max_y` / `while x + w <= max_x` loops of
`_place_grid_based` (which run with the fixed positive step 0.5). -/
def gridCoords (lo hi step size : ℚ) : List ℚ :=
  if 0 < step ∧ lo + size ≤ hi then
    (List.range (⌊(hi - size - lo) / step⌋.toNat + 1)).map (fun k => lo + k * step)
  else []

/-- All candidate boxes of width `w` and height `h` in grid order
(`y` outer loop, `x` inner loop). -/
def gridCandidates (A : AreaModel) (step w h : ℚ) : List Rect :=
  (gridCoords A.minY A.maxY step h).flatMap (fun y =>
    (gridCoords A.minX A.maxX step w).map (fun x => boxR x y (x + w) (y + h)))

/-- The `best_score = -1 / if valid and score > best_score` accumulation
all three `layout_optimizer.py` strategies share. -/
def pickBest (valid : Rect → Bool) (score : Rect → ℚ) :
    List Rect → Option Rect × ℚ → Option Rect × ℚ
  | [], acc => acc
  | c :: rest, acc =>
    if valid c ∧ acc.2 < score c then pickBest valid score rest (some c, score c)
    else pickBest valid score rest acc

/-- Validity test of `_place_grid_based`:
`candidate.within(usable_area) and not candidate.intersects(occupied_space)`,
where `occupied_space` is the union of the already-placed islands
buffered by `min_island_spacing`. -/
def gridValid (A : AreaModel) (spacing : ℚ) (placed : List Rect) (c : Rect) : Bool :=
  A.within c && ! placed.any (fun p => intersectsBufferOf c p spacing)

/-- `LayoutOptimizer._place_grid_based`.  The position score
(`_calculate_position_score`, a float computed from irrational
centroid distances) is an explicit parameter; every theorem about the
placement holds for all scores. -/
def place_grid_based (A : AreaModel) (score : Rect → List Rect → ℚ)
    (spacing : ℚ) (islands_to_place : List (ℚ × ℚ)) : List Rect :=
  (islands_to_place.insertionSort (fun a b => b.1 * b.2 ≤ a.1 * a.2)).foldl
    (fun placed wh =>
      match (pickBest (gridValid A spacing placed) (fun c => score c placed)
          (gridCandidates A (1 / 2) wh.1 wh.2 ++ gridCandidates A (1 / 2) wh.2 wh.1)
          (none, -1)).1 with
      | some best => placed ++ [best]
      | none => placed)
    []

/-- A `some` result of `pickBest` is either the incoming accumulator or
a valid candidate. -/
theorem pickBest_valid (valid : Rect → Bool) (score : Rect → ℚ) :
    ∀ (cs : List Rect) (acc : Option Rect × ℚ) (b : Rect),
      (pickBest valid score cs acc).1 = some b →
      acc.1 = some b ∨ valid b = true := by
  intro cs
  induction cs with
  | nil => intro acc b h; exact Or.inl h
  | cons c rest ih =>
    intro acc b h
    simp only [pickBest] at h
    split at h
    · rcases ih _ _ h with h' | h'
      · simp only [Option.some.injEq] at h'
        subst h'
        rename_i hc
        exact Or.inr hc.1
      · exact Or.inr h'
    · exact ih _ _ h

/-- Every rectangle the grid strategy accumulates from a valid start
satisfies the `within` test. -/
theorem place_grid_based_sound (A : AreaModel) (score : Rect → List Rect → ℚ)
    (spacing : ℚ) :
    ∀ (dims : List (ℚ × ℚ)) (placed : List Rect),
      (∀ r ∈ placed, A.within r = true) →
      ∀ r ∈ dims.foldl (fun placed wh =>
          match (pickBest (gridValid A spacing placed) (fun c => score c placed)
              (gridCandidates A (1 / 2) wh.1 wh.2 ++ gridCandidates A (1 / 2) wh.2 wh.1)
              (none, -1)).1 with
          | some best => placed ++ [best]
          | none => placed) placed,
        A.within r = true := by
  intro dims
  induction dims with
  | nil => intro placed hinv r hr; exact hinv r hr
  | cons wh rest ih =>
    intro placed hinv r hr
    simp only [List.foldl_cons] at hr
    rcases hpick : (pickBest (gridValid A spacing placed) (fun c => score c placed)
        (gridCandidates A (1 / 2) wh.1 wh.2 ++ gridCandidates A (1 / 2) wh.2 wh.1)
        (none, -1)).1 with - | best
    · rw [hpick] at hr
      exact ih placed hinv r hr
    · rw [hpick] at hr
      refine ih (placed ++ [best]) ?_ r hr
      intro q hq
      rcases List.mem_append.mp hq with hq | hq
      · exact hinv q hq
      · rcases pickBest_valid _ _ _ _ _ hpick with hnone | hvalid
        · exact absurd hnone (by simp)
        · have := (Bool.and_eq_true _ _).mp hvalid
          simp only [List.mem_singleton] at hq
          subst hq
          exact this.1

/-! ## `IntelligentLayoutOptimizer` data model and validity
(`src/optimizers/intelligent_layout_optimizer.py`) -/

/-- An îlot specification (`_parse_ilot_specifications` output entry);
the color fields are omitted as pure presentation data. -/
structure IlotSpec where
  width : ℚ
  height : ℚ
  area : ℚ
  category : String
deriving DecidableEq, Repr

/-- A placed îlot (the dictionaries built by the placement algorithms);
color fields again omitted. -/
structure Ilot where
  id : Nat
  geometry : Rect
  center : ℚ × ℚ
  width : ℚ
  height : ℚ
  area : ℚ
  category : String
deriving DecidableEq, Repr

/-- `IntelligentLayoutOptimizer._is_valid_placement` (lines 440-468):
containment in the optimization space, pairwise overlap at most the
0.01 m² tolerance, and entrance clearance of at least 2 m
(`accessibility_config['entrance_clearance']`).  The entrance geometry
is `none` when the caller passes an empty geometry dict. -/
def is_valid_placement (ilot_geometry optimization_space : Rect)
    (existing_islands : List Ilot) (entrances : Option Rect) : Bool :=
  rectContains optimization_space ilot_geometry &&
  existing_islands.all (fun e =>
    ! rectsIntersect ilot_geometry e.geometry ||
      interArea ilot_geometry e.geometry ≤ 1 / 100) &&
  (match entrances with
   | none => true
   | some ent => ! (sqDist ilot_geometry ent < 2 ^ 2))

/-- `IntelligentLayoutOptimizer._generate_random_layout` (lines 396-438).
The `random.uniform` positions and `random.choice` spec picks are
supplied as an explicit draw stream `(x, y, spec index)`; the stream
length models the `max_attempts = num_ilots * 50` budget.  The
`geometry` argument of the inner `_is_valid_placement` call is the
empty dict `{}`, i.e. no entrance constraint. -/
def generate_random_layout (optimization_space : Rect) (ilot_specs : List IlotSpec)
    (num_ilots : Nat) : List (ℚ × ℚ × Nat) → List Ilot → List Ilot
  | [], placed => placed
  | (x, y, si) :: draws, placed =>
    if placed.length < num_ilots then
      let spec := ilot_specs.getD si ⟨0, 0, 0, ""⟩
      let g := boxR (x - spec.width / 2) (y - spec.height / 2)
                    (x + spec.width / 2) (y + spec.height / 2)
      if is_valid_placement g optimization_space placed none then
        generate_random_layout optimization_space ilot_specs num_ilots draws
          (placed ++ [⟨placed.length, g, (x, y), spec.width, spec.height,
                       spec.area, spec.category⟩])
      else
        generate_random_layout optimization_space ilot_specs num_ilots draws placed
    else placed

/-- Every îlot `_generate_random_layout` accumulates from a contained
start stays inside the optimization space. -/
theorem generate_random_layout_sound (space : Rect) (specs : List IlotSpec) (n : Nat) :
    ∀ (draws : List (ℚ × ℚ × Nat)) (placed : List Ilot),
      (∀ i ∈ placed, rectContains space i.geometry = true) →
      ∀ i ∈ generate_random_layout space specs n draws placed,
        rectContains space i.geometry = true := by
  intro draws
  induction draws with
  | nil => intro placed hinv i hi; exact hinv i hi
  | cons d rest ih =>
    obtain ⟨x, y, si⟩ := d
    intro placed hinv i hi
    simp only [generate_random_layout] at hi
    split at hi
    · split at hi
      · rename_i hval
        refine ih _ ?_ i hi
        intro q hq
        rcases List.mem_append.mp hq with hq | hq
        · exact hinv q hq
        · simp only [List.mem_singleton] at hq
          subst hq
          have := (Bool.and_eq_true _ _).mp ((Bool.and_eq_true _ _).mp hval).1
          exact this.1
      · exact ih _ hinv i hi
    · exact hinv i hi

/-- C1: every island rectangle a placement strategy returns lies within
the usable area it was given.  First conjunct: `_place_grid_based`
accepts only candidates passing `candidate.within(usable_area)`, for
every usable-area model, position score, spacing and request list.
Second conjunct: every îlot of `_generate_random_layout` (the layout
builder behind the genetic and force-directed strategies) passes
`optimization_space.contains`, i.e. is contained in the optimization
space, for every draw stream.  Since the other strategies accept
placements through the same `_is_valid_placement` test, the selected
layout inherits the property. -/
theorem C1_strategy_islands_contained :
    (∀ (A : AreaModel) (score : Rect → List Rect → ℚ) (spacing : ℚ)
        (dims : List (ℚ × ℚ)) (r : Rect),
        r ∈ place_grid_based A score spacing dims → A.within r = true) ∧
    (∀ (space : Rect) (specs : List IlotSpec) (n : Nat)
        (draws : List (ℚ × ℚ × Nat)) (i : Ilot),
        i ∈ generate_random_layout space specs n draws [] →
        rectContains space i.geometry = true) := by
  constructor
  · intro A score spacing dims r hr
    rw [place_grid_based] at hr
    exact place_grid_based_sound A score spacing _ [] (by simp) r hr
  · intro space specs n draws i hi
    exact generate_random_layout_sound space specs n draws [] (by simp) i hi

theorem place_grid_based_242_eval :
    place_grid_based (rectArea (boxR 0 0 (5 / 2) (5 / 2))) (fun _ _ => 0) (1 / 2) [(2, 2)] =
      [boxR 0 0 2 2] := by
  norm_num [place_grid_based, gridCandidates, gridCoords, pickBest, gridValid, rectArea,
    rectContains, intersectsBufferOf, sqDist, gapX, gapY, boxR, List.insertionSort,
    List.orderedInsert, List.range, List.range.loop]

theorem generate_random_layout_1_eval :
    generate_random_layout (boxR 0 0 20 20) [⟨2, 2, 4, "small"⟩] 1 [(3, 3, 0)] [] =
      [⟨0, boxR 2 2 4 4, (3, 3), 2, 2, 4, "small"⟩] := by
  norm_num [generate_random_layout, is_valid_placement, rectContains, boxR]

/-- C1 witness: the theorem applied to a concrete 2.5 × 2.5 m usable
square with one 2 × 2 island, and to one concrete random draw. -/
theorem C1_strategy_islands_contained_witness :
    ((rectArea (boxR 0 0 (5 / 2) (5 / 2))).within (boxR 0 0 2 2) = true) ∧
    (rectContains (boxR 0 0 20 20)
      (Ilot.mk 0 (boxR 2 2 4 4) (3, 3) 2 2 4 "small").geometry = true) :=
  ⟨C1_strategy_islands_contained.1 (rectArea (boxR 0 0 (5 / 2) (5 / 2))) (fun _ _ => 0)
      (1 / 2) [(2, 2)] (boxR 0 0 2 2)
      (by rw [place_grid_based_242_eval]; exact List.mem_singleton.mpr rfl),
   C1_strategy_islands_contained.2 (boxR 0 0 20 20) [⟨2, 2, 4, "small"⟩] 1 [(3, 3, 0)]
      (Ilot.mk 0 (boxR 2 2 4 4) (3, 3) 2 2 4 "small")
      (by rw [generate_random_layout_1_eval]; exact List.mem_singleton.mpr rfl)⟩

/-! ## `IntelligentIlotOptimizer._intelligent_placement_algorithm`
(`Backup/layout/intelligent_optimizer.py`, lines 115-160) -/

/-- `IntelligentIlotOptimizer._intersects_with_buffer` (lines 236-242):
`candidate.buffer(d)` intersects the occupied space, which is the union
of the already-placed islands each buffered by the same distance; empty
occupied space intersects nothing. -/
def intersects_with_buffer (candidate : Rect) (occupied : List Rect)
    (buffer_distance : ℚ) : Bool :=
  occupied.any (fun p => buffersIntersect candidate p buffer_distance)

/-- Candidate boxes the backup placement builds from the placement grid
for one orientation, skipping grid points where the box overruns the
usable-area bounds. -/
def backupCandidates (A : AreaModel) (gridPts : List (ℚ × ℚ)) (w h : ℚ) : List Rect :=
  gridPts.filterMap (fun p =>
    if A.maxX < p.1 + w ∨ A.maxY < p.2 + h then none
    else some (boxR p.1 p.2 (p.1 + w) (p.2 + h)))

/-- Validity test of the backup placement:
`candidate.within(usable_area) and not _intersects_with_buffer(candidate,
occupied_space, min_island_spacing)`. -/
def backupValid (A : AreaModel) (spacing : ℚ) (placed : List Rect) (c : Rect) : Bool :=
  A.within c && ! intersects_with_buffer c placed spacing

/-- `IntelligentIlotOptimizer._intelligent_placement_algorithm`.  The
placement grid (`_create_intelligent_grid`, which sorts candidate
points by a preference score computed from irrational distances) and
the placement score (`_calculate_intelligent_placement_score`) are
explicit parameters; the theorems hold for every choice of both. -/
def intelligent_placement_algorithm (A : AreaModel) (gridPts : List (ℚ × ℚ))
    (score : Rect → List Rect → ℚ) (spacing : ℚ) (dims : List (ℚ × ℚ)) : List Rect :=
  (dims.insertionSort (fun a b => b.1 * b.2 ≤ a.1 * a.2)).foldl
    (fun placed wh =>
      match (pickBest (backupValid A spacing placed) (fun c => score c placed)
          (backupCandidates A gridPts wh.1 wh.2 ++ backupCandidates A gridPts wh.2 wh.1)
          (none, -1)).1 with
      | some best => placed ++ [best]
      | none => placed)
    []

theorem intelligent_placement_pairwise_aux (A : AreaModel) (gridPts : List (ℚ × ℚ))
    (score : Rect → List Rect → ℚ) (spacing : ℚ) :
    ∀ (dims : List (ℚ × ℚ)) (placed : List Rect),
      List.Pairwise (fun a b => buffersIntersect a b spacing = false) placed →
      List.Pairwise (fun a b => buffersIntersect a b spacing = false)
        (dims.foldl (fun placed wh =>
          match (pickBest (backupValid A spacing placed) (fun c => score c placed)
              (backupCandidates A gridPts wh.1 wh.2 ++ backupCandidates A gridPts wh.2 wh.1)
              (none, -1)).1 with
          | some best => placed ++ [best]
          | none => placed) placed) := by
  intro dims
  induction dims with
  | nil => intro placed hinv; exact hinv
  | cons wh rest ih =>
    intro placed hinv
    simp only [List.foldl_cons]
    split
    · rename_i best hpick
      refine ih (placed ++ [best]) ?_
      rcases pickBest_valid _ _ _ _ _ hpick with hnone | hvalid
      · exact absurd hnone (by simp)
      · have hv := (Bool.and_eq_true _ _).mp hvalid
        have hnob : intersects_with_buffer best placed spacing = false := by
          simpa using hv.2
        rw [List.pairwise_append]
        refine ⟨hinv, by simp, ?_⟩
        have hall : ∀ p ∈ placed, buffersIntersect best p spacing = false := by
          intro p hp
          by_contra hbp
          have : intersects_with_buffer best placed spacing = true := by
            simp only [intersects_with_buffer, List.any_eq_true]
            exact ⟨p, hp, by simpa using hbp⟩
          rw [this] at hnob
          exact Bool.true_eq_false ▸ hnob
        intro a ha b hb
        have hb' : b = best := by simpa using hb
        rw [hb', ← buffersIntersect_comm]
        exact hall a ha
    · rename_i hpick
      exact ih placed hinv

/-- C2 (amended): in the backup intelligent placement — the strategy
that implements the spacing-buffer rule via `_intersects_with_buffer` —
any two distinct placed islands have disjoint spacing-buffered
footprints, for every usable-area model, placement grid, score and
spacing.  (The counterexample `C2_touching_islands_accepted` shows the
strategies of `intelligent_layout_optimizer.py` do not enforce this
rule: `_is_valid_placement` accepts candidates touching an existing
island.) -/
theorem C2_spacing_buffers_disjoint (A : AreaModel) (gridPts : List (ℚ × ℚ))
    (score : Rect → List Rect → ℚ) (spacing : ℚ) (dims : List (ℚ × ℚ)) :
    List.Pairwise (fun a b => buffersIntersect a b spacing = false)
      (intelligent_placement_algorithm A gridPts score spacing dims) := by
  rw [intelligent_placement_algorithm]
  exact intelligent_placement_pairwise_aux A gridPts score spacing _ [] (by simp)

/-- C2 counterexample: `_is_valid_placement` of
`intelligent_layout_optimizer.py` accepts a candidate that touches an
already-placed island (intersection area 0 ≤ the 0.01 m² tolerance), so
`_generate_random_layout` produces a layout with two touching islands
whose footprints buffered by the 0.8 m minimum island spacing
intersect, contradicting the claim for this strategy family. -/
theorem C2_touching_islands_accepted :
    generate_random_layout (boxR 0 0 20 20) [⟨2, 2, 4, "small"⟩] 2
        [(3, 3, 0), (5, 3, 0)] [] =
      [⟨0, boxR 2 2 4 4, (3, 3), 2, 2, 4, "small"⟩,
       ⟨1, boxR 4 2 6 4, (5, 3), 2, 2, 4, "small"⟩] ∧
    buffersIntersect (boxR 2 2 4 4) (boxR 4 2 6 4) (4 / 5) = true := by
  constructor
  · norm_num [generate_random_layout, is_valid_placement, rectContains, rectsIntersect,
      interArea, boxR]
  · norm_num [buffersIntersect, sqDist, gapX, gapY, boxR]

/-! ## Corridor synthesis
(`Backup/layout/intelligent_optimizer.py`, lines 282-470) -/

/-- A corridor record as built by `_generate_mandatory_corridor_network`:
geometry, its area, the requested width and the pair of row (or island)
indices it connects. -/
structure Corridor where
  geometry : Rect
  area : ℚ
  width : ℚ
  connects : Nat × Nat
deriving DecidableEq, Repr

/-- `a.intersection(b)` for the corridor clipping steps, `none` when the
interiors miss.  (The source treats an empty intersection as an absent
corridor: unpacking its empty `bounds` raises inside the enclosing
try/except, and callers drop corridors failing `not corridor.is_empty`.) -/
def rectInter (a b : Rect) : Option Rect :=
  if max a.x1 b.x1 < min a.x2 b.x2 ∧ max a.y1 b.y1 < min a.y2 b.y2 then
    some ⟨max a.x1 b.x1, max a.y1 b.y1, min a.x2 b.x2, min a.y2 b.y2⟩
  else none

/-- Python `min(f(r) for r in row)`; rows always have at least one
member where this is used (0 is dead-code padding for `[]`). -/
def minOver (f : Rect → ℚ) : List Rect → ℚ
  | [] => 0
  | r :: rest => rest.foldl (fun m q => min m (f q)) (f r)

/-- Python `max(f(r) for r in row)`. -/
def maxOver (f : Rect → ℚ) : List Rect → ℚ
  | [] => 0
  | r :: rest => rest.foldl (fun m q => max m (f q)) (f r)

/-- The greedy grouping loop of `_identify_island_rows`: consecutive
(y-sorted) centres whose y differs from the row's last member by at
most the tolerance extend the current row; a completed row is kept only
with at least two members. -/
def groupRows (tol : ℚ) :
    List (ℚ × ℚ × Nat) → List (ℚ × ℚ × Nat) → List (List (ℚ × ℚ × Nat)) →
      List (List (ℚ × ℚ × Nat))
  | [], current, rows => rows ++ (if 2 ≤ current.length then [current] else [])
  | c :: rest, current, rows =>
    if |c.2.1 - (current.getLastD (0, 0, 0)).2.1| ≤ tol then
      groupRows tol rest (current ++ [c]) rows
    else
      groupRows tol rest [c] (rows ++ (if 2 ≤ current.length then [current] else []))

/-- `IntelligentIlotOptimizer._identify_island_rows` (lines 317-347):
island centres `(x, y, index)` stably sorted by `y`, grouped with a 2 m
tolerance, rows of fewer than two islands dropped, and indices mapped
back to the islands. -/
def identify_island_rows (islands : List Rect) : List (List Rect) :=
  match islands with
  | [] => []
  | _ =>
    let centers := islands.enum.map (fun p => (p.2.cx, p.2.cy, p.1))
    let sorted := centers.insertionSort (fun a b => a.2.1 ≤ b.2.1)
    let grouped :=
      match sorted with
      | [] => []
      | c0 :: rest => groupRows 2 rest [c0] []
    grouped.map (fun row => row.map (fun c => islands.getD c.2.2 (boxR 0 0 0 0)))

/-- `IntelligentIlotOptimizer._are_rows_facing` (lines 349-365):
average-centre separation of at least 2 m and positive horizontal
bounding overlap. -/
def are_rows_facing (row1 row2 : List Rect) : Bool :=
  let avg_y1 := (row1.map Rect.cy).sum / row1.length
  let avg_y2 := (row2.map Rect.cy).sum / row2.length
  let x_overlap := min (maxOver Rect.x2 row1) (maxOver Rect.x2 row2) -
    max (minOver Rect.x1 row1) (minOver Rect.x1 row2)
  2 ≤ |avg_y2 - avg_y1| && 0 < x_overlap

/-- `IntelligentIlotOptimizer._create_corridor_between_rows`
(lines 367-418): span the vertical gap between the rows over their
common x-range, clip to the usable area, and when narrower than the
corridor width re-centre and widen symmetrically (re-clipped). -/
def create_corridor_between_rows (row1 row2 : List Rect) (usable_area : Rect)
    (corridor_width : ℚ) : Option Rect :=
  let max_y1 := maxOver Rect.y2 row1
  let min_y1 := minOver Rect.y1 row1
  let max_y2 := maxOver Rect.y2 row2
  let min_y2 := minOver Rect.y1 row2
  let cy1 := if max_y1 < min_y2 then max_y1 else max_y2
  let cy2 := if max_y1 < min_y2 then min_y2 else min_y1
  let cx1 := max (minOver Rect.x1 row1) (minOver Rect.x1 row2)
  let cx2 := min (maxOver Rect.x2 row1) (maxOver Rect.x2 row2)
  if cx2 ≤ cx1 then none
  else
    match rectInter (boxR cx1 cy1 cx2 cy2) usable_area with
    | none => none
    | some clip =>
      let aw := min (clip.x2 - clip.x1) (clip.y2 - clip.y1)
      if aw < corridor_width then
        let ccx := (clip.x1 + clip.x2) / 2
        let ccy := (clip.y1 + clip.y2) / 2
        let hw := corridor_width / 2
        let expanded :=
          if clip.x2 - clip.x1 < corridor_width then
            boxR (ccx - hw) clip.y1 (ccx + hw) clip.y2
          else
            boxR clip.x1 (ccy - hw) clip.x2 (ccy + hw)
        rectInter expanded usable_area
      else some clip

/-- Index pairs `(i, j)` with `i < j < n` in the enumeration order of
the double loop `for i, row1 in enumerate(rows): for j, row2 in
enumerate(rows[i+1:], i+1)`. -/
def rowPairs (n : Nat) : List (Nat × Nat) :=
  (List.range n).flatMap (fun i => ((List.range n).drop (i + 1)).map (fun j => (i, j)))

/-- The type of the `_generate_mst_corridors` fallback (lines 420-461),
supplied as a parameter: arguments are the islands, the usable area,
the corridor width and the already-built corridors.  Its corridors are
stadium-shaped buffered centre-to-centre segments, whose geometry lies
outside the rectangle model; as the theorems below show, the guard
`len(corridors) < len(island_rows) - 1` settles every claim before the
fallback can run, so no theorem depends on its value. -/
def MstFun : Type :=
  List Rect → Rect → ℚ → List Corridor → List Corridor

/-- A trivial `MstFun` used to instantiate counterexamples whose
computation never reaches the fallback. -/
def mstNone : MstFun := fun _ _ _ _ => []

/-- `IntelligentIlotOptimizer._generate_mandatory_corridor_network`
(lines 282-315): facing-row corridors for every row pair, then — only
when fewer corridors were built than `len(island_rows) - 1`, an `int`
comparison — the MST fallback extends the list. -/
def generate_mandatory_corridor_network (mstF : MstFun) (usable_area : Rect)
    (islands : List Rect) (corridor_width : ℚ) : List Corridor :=
  if islands.length < 2 then []
  else
    let island_rows := identify_island_rows islands
    let corridors := (rowPairs island_rows.length).filterMap (fun ij =>
      let row1 := island_rows.getD ij.1 []
      let row2 := island_rows.getD ij.2 []
      if are_rows_facing row1 row2 then
        match create_corridor_between_rows row1 row2 usable_area corridor_width with
        | some c => some ⟨c, c.area, corridor_width, ij⟩
        | none => none
      else none)
    if (corridors.length : ℤ) < (island_rows.length : ℤ) - 1 then
      corridors ++ mstF islands usable_area corridor_width corridors
    else corridors

theorem rows_two_lone_islands_eval :
    identify_island_rows [boxR 2 2 4 4, boxR 2 8 4 10] = [] := by
  norm_num [identify_island_rows, groupRows, List.insertionSort, List.orderedInsert,
    List.enum, List.enumFrom, Rect.cx, Rect.cy, boxR]

theorem rows_facing_pairs_eval :
    identify_island_rows [boxR 2 2 4 4, boxR 6 2 8 4, boxR 2 8 4 10, boxR 6 8 8 10] =
      [[boxR 2 2 4 4, boxR 6 2 8 4], [boxR 2 8 4 10, boxR 6 8 8 10]] := by
  norm_num [identify_island_rows, groupRows, List.insertionSort, List.orderedInsert,
    List.enum, List.enumFrom, Rect.cx, Rect.cy, boxR]

theorem facing_pairs_are_facing_eval :
    are_rows_facing [boxR 2 2 4 4, boxR 6 2 8 4] [boxR 2 8 4 10, boxR 6 8 8 10] = true := by
  norm_num [are_rows_facing, minOver, maxOver, Rect.cy, boxR]

theorem corridor_between_facing_pairs_eval :
    create_corridor_between_rows [boxR 2 2 4 4, boxR 6 2 8 4]
      [boxR 2 8 4 10, boxR 6 8 8 10] (boxR 0 0 12 12) (6 / 5) = some (boxR 2 4 8 8) := by
  norm_num [create_corridor_between_rows, minOver, maxOver, rectInter, boxR]

/-- C3 counterexample: for exactly the two islands (2,2)-(4,4) and
(2,8)-(4,10) of the scenario, row detection yields no row at all (each
island is alone in its y-band and a row needs at least two members), so
the corridor synthesizer returns no corridor — in particular no
facing-row corridor over x ∈ [2,4], y ∈ [4,8].  The MST fallback is not
consulted: the guard `len(corridors) < len(island_rows) - 1` is
`0 < -1`. -/
theorem C3_two_islands_no_corridor :
    identify_island_rows [boxR 2 2 4 4, boxR 2 8 4 10] = [] ∧
    generate_mandatory_corridor_network mstNone (boxR 0 0 12 12)
      [boxR 2 2 4 4, boxR 2 8 4 10] (6 / 5) = [] := by
  refine ⟨rows_two_lone_islands_eval, ?_⟩
  simp only [generate_mandatory_corridor_network, rows_two_lone_islands_eval]
  norm_num [rowPairs]

/-- C3 (amended): with exactly the scenario's two islands the corridor
synthesizer returns the empty corridor list, for every usable area,
corridor width and MST fallback; the facing-row corridor the scenario
expects is produced only between rows of at least two islands each —
duplicating each island side by side (rows {(2,2)-(4,4), (6,2)-(8,4)}
and {(2,8)-(4,10), (6,8)-(8,10)}) yields exactly the corridor
(2,4)-(8,8) spanning the y-gap [4,8] over the common x-range, carrying
the configured width. -/
theorem C3_facing_row_corridor :
    (∀ (mstF : MstFun) (usable_area : Rect) (corridor_width : ℚ),
      generate_mandatory_corridor_network mstF usable_area
        [boxR 2 2 4 4, boxR 2 8 4 10] corridor_width = []) ∧
    (∀ mstF : MstFun,
      generate_mandatory_corridor_network mstF (boxR 0 0 12 12)
        [boxR 2 2 4 4, boxR 6 2 8 4, boxR 2 8 4 10, boxR 6 8 8 10] (6 / 5) =
        [⟨boxR 2 4 8 8, 24, 6 / 5, (0, 1)⟩]) := by
  constructor
  · intro mstF usable_area corridor_width
    simp only [generate_mandatory_corridor_network, rows_two_lone_islands_eval]
    norm_num [rowPairs]
  · intro mstF
    simp only [generate_mandatory_corridor_network, rows_facing_pairs_eval]
    simp only [rowPairs, List.range, List.range.loop, List.filterMap, List.getD,
      List.flatMap, List.drop, List.map, List.get?_cons_zero, List.get?_cons_succ,
      List.get?_nil, Option.getD_some, List.length_cons, List.length_nil,
      facing_pairs_are_facing_eval, corridor_between_facing_pairs_eval, if_true]
    norm_num [Rect.area, boxR]

/-- C4 (amended): whenever row detection finds no row — in particular
for any scattered islands whose y-sorted centres are pairwise more than
the 2 m tolerance apart — the corridor synthesizer returns no corridors
at all, for every usable area, width and MST fallback: the fallback is
guarded by `len(corridors) < len(island_rows) - 1`, which is `0 < -1`
when there are no rows, so it never runs. -/
theorem C4_no_rows_no_corridors (mstF : MstFun) (usable_area : Rect)
    (corridor_width : ℚ) (islands : List Rect)
    (hrows : identify_island_rows islands = []) :
    generate_mandatory_corridor_network mstF usable_area islands corridor_width = [] := by
  simp only [generate_mandatory_corridor_network, hrows]
  split
  · rfl
  · norm_num [rowPairs]

theorem rows_five_scattered_eval :
    identify_island_rows [boxR 0 0 2 2, boxR 0 3 2 5, boxR 0 6 2 8,
      boxR 0 9 2 11, boxR 0 12 2 14] = [] := by
  norm_num [identify_island_rows, groupRows, List.insertionSort, List.orderedInsert,
    List.enum, List.enumFrom, Rect.cx, Rect.cy, boxR]

/-- C4 counterexample: five scattered islands forming no row (adjacent
centre-y gaps of 3 m > the 2 m tolerance, all pairwise centre distances
at most 12 m < the 15 m connection bound) inside a non-empty 40×40 m
usable area.  The synthesizer returns the empty corridor list — not the
4 MST corridors the claim promises — because with zero rows the MST
fallback guard `0 < 0 - 1` fails. -/
theorem C4_five_scattered_no_mst :
    generate_mandatory_corridor_network mstNone (boxR 0 0 40 40)
      [boxR 0 0 2 2, boxR 0 3 2 5, boxR 0 6 2 8, boxR 0 9 2 11, boxR 0 12 2 14]
      (6 / 5) = [] ∧
    (boxR 0 0 40 40).area ≠ 0 := by
  constructor
  · simp only [generate_mandatory_corridor_network, rows_five_scattered_eval]
    split
    · rfl
    · norm_num [rowPairs]
  · norm_num [Rect.area, boxR]

/-- C4 witness: the amended theorem applied to the five scattered
islands inside a 30×30 m usable area. -/
theorem C4_no_rows_no_corridors_witness :
    identify_island_rows [boxR 0 0 2 2, boxR 0 3 2 5, boxR 0 6 2 8,
      boxR 0 9 2 11, boxR 0 12 2 14] = [] ∧
    generate_mandatory_corridor_network mstNone (boxR 0 0 30 30)
      [boxR 0 0 2 2, boxR 0 3 2 5, boxR 0 6 2 8, boxR 0 9 2 11, boxR 0 12 2 14]
      (6 / 5) = [] :=
  ⟨rows_five_scattered_eval,
   C4_no_rows_no_corridors mstNone (boxR 0 0 30 30) (6 / 5)
     [boxR 0 0 2 2, boxR 0 3 2 5, boxR 0 6 2 8, boxR 0 9 2 11, boxR 0 12 2 14]
     rows_five_scattered_eval⟩

/-! ## `IntelligentLayoutOptimizer._select_best_layout` (lines 649-666) -/

/-- A successful strategy result as `_select_best_layout` consumes it:
achieved coverage, accessibility score, and a tag standing for the rest
of the result dict (algorithm name and layout payload), which selection
carries through but never reads. -/
structure StratResult where
  coverage_achieved : ℚ
  accessibility_score : ℚ
  algorithmId : Nat
deriving DecidableEq, Repr

/-- The composite score computed by `_select_best_layout`:
`coverage_score = 1.0 - abs(result['coverage_achieved'] - coverage_profile)`
and `composite_score = coverage_score * 0.6 + accessibility_score * 0.4`.
The coverage term is neither divided by the target nor floored at 0. -/
def composite_score (coverage_profile : ℚ) (r : StratResult) : ℚ :=
  (1 - |r.coverage_achieved - coverage_profile|) * (3 / 5) +
    r.accessibility_score * (2 / 5)

/-- `_select_best_layout`: a linear scan keeping the first result whose
composite score strictly exceeds the best so far, starting from -1. -/
def select_best_layout (optimization_results : List StratResult)
    (coverage_profile : ℚ) : Option StratResult :=
  (optimization_results.foldl
    (fun acc r =>
      if acc.2 < composite_score coverage_profile r then
        (some r, composite_score coverage_profile r)
      else acc)
    ((none : Option StratResult), (-1 : ℚ))).1

/-- The composite score as the claim (and spec) state it:
`0.6 × max(0, 1 − |actual − target| / target) + 0.4 × accessibility`.
Stated only to be compared against the implemented `composite_score`. -/
def claimed_composite_score (coverage_profile : ℚ) (r : StratResult) : ℚ :=
  (3 / 5) * max 0 (1 - |r.coverage_achieved - coverage_profile| / coverage_profile) +
    (2 / 5) * r.accessibility_score

theorem select_fold_spec (t : ℚ) :
    ∀ (rs : List StratResult) (acc : Option StratResult × ℚ),
      (acc.1 = none ∨ ∃ b, acc.1 = some b ∧ acc.2 = composite_score t b) →
      (∀ q ∈ rs, composite_score t q ≤
        (rs.foldl (fun acc r =>
          if acc.2 < composite_score t r then (some r, composite_score t r) else acc) acc).2) ∧
      acc.2 ≤ (rs.foldl (fun acc r =>
          if acc.2 < composite_score t r then (some r, composite_score t r) else acc) acc).2 ∧
      ((rs.foldl (fun acc r =>
          if acc.2 < composite_score t r then (some r, composite_score t r) else acc) acc) = acc ∨
        ∃ b ∈ rs,
          (rs.foldl (fun acc r =>
            if acc.2 < composite_score t r then (some r, composite_score t r) else acc) acc).1 =
              some b ∧
          (rs.foldl (fun acc r =>
            if acc.2 < composite_score t r then (some r, composite_score t r) else acc) acc).2 =
              composite_score t b) := by
  intro rs
  induction rs with
  | nil =>
    intro acc hacc
    refine ⟨by simp, le_refl _, Or.inl rfl⟩
  | cons r rest ih =>
    intro acc hacc
    simp only [List.foldl_cons]
    by_cases hstep : acc.2 < composite_score t r
    · rw [if_pos hstep]
      have ih' := ih (some r, composite_score t r) (Or.inr ⟨r, rfl, rfl⟩)
      refine ⟨?_, ?_, ?_⟩
      · intro q hq
        rcases List.mem_cons.mp hq with rfl | hq'
        · exact le_trans (le_of_eq rfl) ih'.2.1
        · exact ih'.1 q hq'
      · exact le_trans (le_of_lt hstep) ih'.2.1
      · rcases ih'.2.2 with heq | ⟨b, hb, h1, h2⟩
        · exact Or.inr ⟨r, List.mem_cons_self r rest, by rw [heq], by rw [heq]⟩
        · exact Or.inr ⟨b, List.mem_cons_of_mem r hb, h1, h2⟩
    · rw [if_neg hstep]
      have ih' := ih acc hacc
      refine ⟨?_, ih'.2.1, ?_⟩
      · intro q hq
        rcases List.mem_cons.mp hq with rfl | hq'
        · exact le_trans (le_of_not_lt hstep) ih'.2.1
        · exact ih'.1 q hq'
      · rcases ih'.2.2 with heq | ⟨b, hb, h1, h2⟩
        · exact Or.inl heq
        · exact Or.inr ⟨b, List.mem_cons_of_mem r hb, h1, h2⟩

/-- C5 (amended): `_select_best_layout` returns a member of the result
list whose implemented composite score — `0.6 × (1 − |actual − target|)
+ 0.4 × accessibility`, with the coverage term neither normalised by
the target nor floored at 0 — is maximal among all results (the first
such on ties).  The claim's normalised-and-floored formula is not the
one computed (see `C5_composite_score_mismatch`). -/
theorem C5_select_best_is_max (optimization_results : List StratResult)
    (coverage_profile : ℚ) (r : StratResult)
    (hsel : select_best_layout optimization_results coverage_profile = some r) :
    r ∈ optimization_results ∧
      ∀ q ∈ optimization_results,
        composite_score coverage_profile q ≤ composite_score coverage_profile r := by
  have h := select_fold_spec coverage_profile optimization_results (none, -1) (Or.inl rfl)
  rw [select_best_layout] at hsel
  rcases h.2.2 with heq | ⟨b, hb, h1, h2⟩
  · rw [heq] at hsel
    exact absurd hsel (by simp)
  · rw [h1] at hsel
    have hbr : b = r := by simpa using hsel
    subst hbr
    refine ⟨hb, ?_⟩
    intro q hq
    rw [← h2]
    exact h.1 q hq

/-- C5 counterexample: with target coverage 0.1, a result A with
coverage 0.3 and accessibility 0 and a result B with coverage 0.5 and
accessibility 0.25, the engine selects A (implemented scores 0.48 vs
0.46), although under the claim's formula A scores 0 and B scores 0.1 —
the selected layout does not maximise the claimed composite score. -/
theorem C5_composite_score_mismatch :
    select_best_layout [⟨3 / 10, 0, 0⟩, ⟨1 / 2, 1 / 4, 1⟩] (1 / 10) =
      some ⟨3 / 10, 0, 0⟩ ∧
    claimed_composite_score (1 / 10) ⟨3 / 10, 0, 0⟩ <
      claimed_composite_score (1 / 10) ⟨1 / 2, 1 / 4, 1⟩ := by
  constructor
  · norm_num [select_best_layout, composite_score, abs_of_nonneg]
  · norm_num [claimed_composite_score, abs_of_nonneg, sup_eq_max, max_def]

/-- C5 witness: the amended theorem applied to a singleton result list
with coverage on target and full accessibility. -/
theorem C5_select_best_is_max_witness :
    (StratResult.mk (1 / 4) 1 0) ∈ [StratResult.mk (1 / 4) 1 0] ∧
      ∀ q ∈ [StratResult.mk (1 / 4) 1 0],
        composite_score (1 / 4) q ≤ composite_score (1 / 4) (StratResult.mk (1 / 4) 1 0) :=
  C5_select_best_is_max [⟨1 / 4, 1, 0⟩] (1 / 4) ⟨1 / 4, 1, 0⟩
    (by norm_num [select_best_layout, composite_score])

/-! ## LayoutScorer pieces of `IntelligentLayoutOptimizer`
(lines 470-578) -/

/-- All ordered pairs `(layout[i], layout[j])` with `i < j` — the
iteration `for i, a in enumerate(layout): for b in layout[i+1:]`. -/
def pairsOf {α : Type} : List α → List (α × α)
  | [] => []
  | a :: rest => rest.map (fun b => (a, b)) ++ pairsOf rest

/-- `_calculate_accessibility_score` (lines 501-530): start at 1.0,
subtract 0.1 per island whose distance to the entrances is below the
2 m entrance clearance, subtract 0.05 per island pair closer than the
1.5 m minimum clearance, floor at 0; an empty layout scores 0. -/
def calculate_accessibility_score (layout : List Ilot) (entrances : Option Rect) : ℚ :=
  if layout = [] then 0
  else
    let entPenalty : ℚ :=
      match entrances with
      | none => 0
      | some ent =>
        ((layout.filter (fun i => sqDist i.geometry ent < 2 ^ 2)).length : ℚ) * (1 / 10)
    let pairPenalty : ℚ :=
      (((pairsOf layout).filter
        (fun p => sqDist p.1.geometry p.2.geometry < (3 / 2) ^ 2)).length : ℚ) * (1 / 20)
    max 0 (1 - entPenalty - pairPenalty)

/-- `_calculate_distribution_score` (lines 532-560): 1.0 for fewer than
two islands; otherwise `1 − variance/mean²` of the pairwise Euclidean
centre distances, which is irrational in general — that case is the
parameter `distOracle`. -/
def calculate_distribution_score (distOracle : List Ilot → ℚ) (layout : List Ilot) : ℚ :=
  if layout.length < 2 then 1 else distOracle layout

/-- `_calculate_overlap_penalty` (lines 562-578): sum over intersecting
pairs of intersection area divided by the smaller island's `area`
field. -/
def calculate_overlap_penalty (layout : List Ilot) : ℚ :=
  ((pairsOf layout).map (fun p =>
    if rectsIntersect p.1.geometry p.2.geometry then
      interArea p.1.geometry p.2.geometry / min p.1.area p.2.area
    else 0)).sum

/-- `IntelligentLayoutOptimizer._evaluate_layout_fitness` (lines
470-499): `0.4 × coverage + 0.3 × accessibility + 0.2 × distribution −
0.1 × overlap`, floored at 0, where `coverage = 1 − |Σ geometry areas −
target| / target` and `target = optimization_space.area ×
coverage_profile`.  A zero target raises `ZeroDivisionError`, which the
enclosing handler turns into 0.0. -/
def evaluate_layout_fitness (distOracle : List Ilot → ℚ) (layout : List Ilot)
    (optimization_space : Rect) (coverage_profile : ℚ) (entrances : Option Rect) : ℚ :=
  let total_area := (layout.map (fun i => i.geometry.area)).sum
  let target_area := optimization_space.area * coverage_profile
  if target_area = 0 then 0
  else
    let coverage_score := 1 - |total_area - target_area| / target_area
    max 0 (coverage_score * (2 / 5) +
      calculate_accessibility_score layout entrances * (3 / 10) +
      calculate_distribution_score distOracle layout * (1 / 5) -
      calculate_overlap_penalty layout * (1 / 10))

/-- The evolutionary fitness as the claim states it: the coverage-match
term floored at 0 inside the sum (`max(0, 1 − |a − t| / t)`), with the
same accessibility, distribution and overlap terms.  Stated only for
comparison with `evaluate_layout_fitness`. -/
def claimed_layout_fitness (distOracle : List Ilot → ℚ) (layout : List Ilot)
    (optimization_space : Rect) (coverage_profile : ℚ) (entrances : Option Rect) : ℚ :=
  let total_area := (layout.map (fun i => i.geometry.area)).sum
  let target_area := optimization_space.area * coverage_profile
  max 0 ((2 / 5) * max 0 (1 - |total_area - target_area| / target_area) +
    (3 / 10) * calculate_accessibility_score layout entrances +
    (1 / 5) * calculate_distribution_score distOracle layout -
    (1 / 10) * calculate_overlap_penalty layout)

/-- C8 (amended): for a non-zero target area the evolutionary fitness is
`max(0, 0.4 × (1 − |a − t| / t) + 0.3 × accessibility + 0.2 ×
distribution − 0.1 × overlap)` — the weights, terms and outer floor are
as claimed, but the coverage term itself is **not** floored at 0 and may
drive the sum negative.  The claim's formula (inner floor) coincides
with the implementation exactly when the coverage deviation is at most
the target, `|a − t| ≤ t`. -/
theorem C8_fitness_formula_unfloored_coverage :
    (∀ (distOracle : List Ilot → ℚ) (layout : List Ilot)
        (optimization_space : Rect) (coverage_profile : ℚ) (entrances : Option Rect),
      optimization_space.area * coverage_profile ≠ 0 →
      evaluate_layout_fitness distOracle layout optimization_space coverage_profile entrances =
        max 0 ((1 - |(layout.map (fun i => i.geometry.area)).sum -
              optimization_space.area * coverage_profile| /
              (optimization_space.area * coverage_profile)) * (2 / 5) +
          calculate_accessibility_score layout entrances * (3 / 10) +
          calculate_distribution_score distOracle layout * (1 / 5) -
          calculate_overlap_penalty layout * (1 / 10))) ∧
    (∀ (distOracle : List Ilot → ℚ) (layout : List Ilot)
        (optimization_space : Rect) (coverage_profile : ℚ) (entrances : Option Rect),
      optimization_space.area * coverage_profile ≠ 0 →
      |(layout.map (fun i => i.geometry.area)).sum -
          optimization_space.area * coverage_profile| ≤
        optimization_space.area * coverage_profile →
      evaluate_layout_fitness distOracle layout optimization_space coverage_profile entrances =
        claimed_layout_fitness distOracle layout optimization_space coverage_profile entrances) := by
  constructor
  · intro distOracle layout space p entrances ht
    simp only [evaluate_layout_fitness, if_neg ht]
  · intro distOracle layout space p entrances ht habs
    have hpos : 0 < space.area * p :=
      lt_of_le_of_ne (le_trans (abs_nonneg _) habs) (Ne.symm ht)
    have hnn : 0 ≤ 1 - |(layout.map (fun i => i.geometry.area)).sum - space.area * p| /
        (space.area * p) := by
      rw [sub_nonneg]
      exact (div_le_one hpos).mpr habs
    simp only [evaluate_layout_fitness, claimed_layout_fitness, if_neg ht,
      max_eq_right hnn]
    ring_nf

/-- C8 counterexample: a single 3×3 island (area 9) in a space of area
30 with coverage profile 0.1 (target 3).  The implementation computes
`max(0, 0.4 × (1 − 6/3) + 0.3 × 1 + 0.2 × 1) = 0.1`, while the claimed
formula with the inner floor gives `0.4 × 0 + 0.3 + 0.2 = 0.5`. -/
theorem C8_coverage_term_goes_negative :
    evaluate_layout_fitness (fun _ => 0)
        [⟨0, boxR 0 0 3 3, (3 / 2, 3 / 2), 3, 3, 9, "medium"⟩]
        (boxR 0 0 10 3) (1 / 10) none = 1 / 10 ∧
    claimed_layout_fitness (fun _ => 0)
        [⟨0, boxR 0 0 3 3, (3 / 2, 3 / 2), 3, 3, 9, "medium"⟩]
        (boxR 0 0 10 3) (1 / 10) none = 1 / 2 ∧
    ((1 : ℚ) / 10) ≠ 1 / 2 := by
  refine ⟨?_, ?_, by norm_num⟩
  · norm_num [evaluate_layout_fitness, calculate_accessibility_score,
      calculate_distribution_score, calculate_overlap_penalty, pairsOf,
      Rect.area, boxR, abs_of_nonneg, sup_eq_max, max_def]
  · norm_num [claimed_layout_fitness, calculate_accessibility_score,
      calculate_distribution_score, calculate_overlap_penalty, pairsOf,
      Rect.area, boxR, abs_of_nonneg, sup_eq_max, max_def]

/-- C8 witness: the amended theorem applied to a single unit island in
a space of area 4 with coverage profile 1/2 (target 2, deviation 1 ≤ 2):
both fitness formulas agree there. -/
theorem C8_fitness_formula_witness :
    (boxR 0 0 4 1).area * (1 / 2) ≠ 0 ∧
    evaluate_layout_fitness (fun _ => 0)
        [⟨0, boxR 0 0 1 1, (1 / 2, 1 / 2), 1, 1, 1, "small"⟩]
        (boxR 0 0 4 1) (1 / 2) none =
      claimed_layout_fitness (fun _ => 0)
        [⟨0, boxR 0 0 1 1, (1 / 2, 1 / 2), 1, 1, 1, "small"⟩]
        (boxR 0 0 4 1) (1 / 2) none :=
  ⟨by norm_num [Rect.area, boxR],
   C8_fitness_formula_unfloored_coverage.2 (fun _ => 0)
     [⟨0, boxR 0 0 1 1, (1 / 2, 1 / 2), 1, 1, 1, "small"⟩]
     (boxR 0 0 4 1) (1 / 2) none
     (by norm_num [Rect.area, boxR])
     (by norm_num [Rect.area, boxR, abs_of_nonneg])⟩

/-! ## Empty-usable-area handling: `LayoutOptimizer.optimize_layout`
(`layout_optimizer.py`, lines 16-45) versus
`optimize_intelligent_layout` (`intelligent_layout_optimizer.py`,
lines 43-108) -/

/-- The statistics dict of `LayoutOptimizer._calculate_stats`
(lines 318-333). -/
structure LayoutStats where
  total_area : ℚ
  island_area : ℚ
  corridor_area : ℚ
  free_area : ℚ
  island_coverage : ℚ
  corridor_coverage : ℚ
  islands_placed : Nat
  corridors_created : Nat
deriving DecidableEq, Repr

/-- `LayoutOptimizer._calculate_stats`. -/
def calculate_stats (usable_area : Rect) (islands corridors : List Rect) : LayoutStats :=
  let total_area := usable_area.area
  let island_area := (islands.map Rect.area).sum
  let corridor_area := (corridors.map Rect.area).sum
  ⟨total_area, island_area, corridor_area,
   total_area - island_area - corridor_area,
   if 0 < total_area then island_area / total_area else 0,
   if 0 < total_area then corridor_area / total_area else 0,
   islands.length, corridors.length⟩

/-- Result dict of `optimize_layout`: the short-circuit returns
`{"islands": [], "corridors": [], "stats": {}}`, modelled with
`stats = none`. -/
structure LayoutResult where
  islands : List Rect
  corridors : List Rect
  stats : Option LayoutStats
deriving DecidableEq, Repr

/-- `LayoutOptimizer.optimize_layout` (lines 16-45).  `usable_area` is
`none` when the caller passed a falsy or empty polygon
(`if not usable_area or usable_area.is_empty`).  The placement step
(`_place_islands_optimized`, racing three strategies of which one is
randomized) and the corridor step (`_generate_corridor_network`, a
networkx MST over buffered segments) are parameters — the deterministic
grid strategy is embedded above as `place_grid_based` — and the guard
precedes both. -/
def optimize_layout (usable_area : Option Rect)
    (placeIslands : Rect → List (ℚ × ℚ) → List Rect)
    (genCorridors : ℚ → Rect → List Rect → List Rect)
    (island_dimensions : List (ℚ × ℚ))
    (corridor_width coverage_profile : ℚ) : LayoutResult :=
  match usable_area with
  | none => ⟨[], [], none⟩
  | some u =>
    let target_island_area := u.area * coverage_profile
    let islands := placeIslands u (generate_island_sizes island_dimensions target_island_area)
    let corridors := genCorridors corridor_width u islands
    ⟨islands, corridors, some (calculate_stats u islands corridors)⟩

/-- The fallback branch of `optimize_intelligent_layout` (lines 56-65):
a missing or sub-0.1 m² optimization space is replaced by the wall
bounds box, or the standard 50×30 room when no walls exist, and the
pipeline continues into the strategies with that space instead of
returning. -/
def resolve_optimization_space (optimization_space walls_bounds : Option Rect) : Rect :=
  let fallback :=
    match walls_bounds with
    | some wb => wb
    | none => boxR 0 0 50 30
  match optimization_space with
  | none => fallback
  | some s => if s.area < 1 / 10 then fallback else s

/-- `np.arange(start, stop, step)` for rationals (empty for a
non-positive step, which the grid code never produces). -/
def arangeQ (start stop step : ℚ) : List ℚ :=
  if 0 < step then
    (List.range ⌈(stop - start) / step⌉.toNat).map (fun k => start + k * step)
  else []

/-- The x-major cell scan of `_grid_based_placement` with its two
`break`s, both of which fire exactly when the accumulated area has
reached the target: the scan stops at the first cell where
`current_area >= target_area`. -/
def gridPlaceLoop (optimization_space : Rect) (ilot_specs : List IlotSpec)
    (target_area : ℚ) (entrances : Option Rect) :
    List (ℚ × ℚ) → List Ilot → ℚ → Nat → List Ilot × ℚ
  | [], placed, current, _ => (placed, current)
  | (x, y) :: cells, placed, current, island_id =>
    if target_area ≤ current then (placed, current)
    else
      let spec := ilot_specs.getD (island_id % ilot_specs.length) ⟨0, 0, 0, ""⟩
      let ilot_rect := boxR (x - spec.width / 2) (y - spec.height / 2)
                            (x + spec.width / 2) (y + spec.height / 2)
      if is_valid_placement ilot_rect optimization_space placed entrances then
        gridPlaceLoop optimization_space ilot_specs target_area entrances cells
          (placed ++ [⟨island_id, ilot_rect, (x, y), spec.width, spec.height,
                       spec.area, spec.category⟩])
          (current + spec.area) (island_id + 1)
      else
        gridPlaceLoop optimization_space ilot_specs target_area entrances cells
          placed current island_id

/-- A successful strategy result as the algorithms of
`intelligent_layout_optimizer.py` build it. -/
structure AlgoResult where
  islands : List Ilot
  coverage_achieved : ℚ
  accessibility_score : ℚ
deriving Repr

/-- `IntelligentLayoutOptimizer._grid_based_placement` (lines 252-321):
grid pitch = mean spec width + corridor width, cells from `np.arange`
with half-average margins, specs cycled by `island_id % len`, validity
through `_is_valid_placement`. -/
def grid_based_placement (optimization_space : Rect) (ilot_specs : List IlotSpec)
    (coverage_profile : ℚ) (entrances : Option Rect) (corridor_width : ℚ) : AlgoResult :=
  let avg_ilot_size := (ilot_specs.map IlotSpec.width).sum / ilot_specs.length
  let grid_spacing := avg_ilot_size + corridor_width
  let x_points := arangeQ (optimization_space.x1 + avg_ilot_size / 2)
    (optimization_space.x2 - avg_ilot_size / 2) grid_spacing
  let y_points := arangeQ (optimization_space.y1 + avg_ilot_size / 2)
    (optimization_space.y2 - avg_ilot_size / 2) grid_spacing
  let cells := x_points.flatMap (fun x => y_points.map (fun y => (x, y)))
  let pr := gridPlaceLoop optimization_space ilot_specs
    (optimization_space.area * coverage_profile) entrances cells [] 0 0
  ⟨pr.1, pr.2 / optimization_space.area, calculate_accessibility_score pr.1 entrances⟩

/-- C6 (amended): `LayoutOptimizer.optimize_layout` short-circuits on a
missing/empty usable area with the explicit empty layout and never
reaches placement or corridor generation — for every placement and
corridor implementation.  `optimize_intelligent_layout`, by contrast,
does not short-circuit: any missing or sub-0.1 m² optimization space is
replaced by the walls' bounds box (or the default 50×30 room) and the
strategies run on the substitute (see
`C6_empty_space_fallback_places_islands`). -/
theorem C6_empty_area_short_circuit :
    (∀ (placeIslands : Rect → List (ℚ × ℚ) → List Rect)
        (genCorridors : ℚ → Rect → List Rect → List Rect)
        (island_dimensions : List (ℚ × ℚ)) (corridor_width coverage_profile : ℚ),
      optimize_layout none placeIslands genCorridors island_dimensions
        corridor_width coverage_profile = ⟨[], [], none⟩) ∧
    (∀ (optimization_space walls_bounds : Option Rect),
      (optimization_space = none ∨
        ∃ s, optimization_space = some s ∧ s.area < 1 / 10) →
      resolve_optimization_space optimization_space walls_bounds =
        (match walls_bounds with
         | some wb => wb
         | none => boxR 0 0 50 30)) := by
  constructor
  · intro placeIslands genCorridors dims w p
    rfl
  · intro space walls h
    rcases h with rfl | ⟨s, rfl, hs⟩
    · rfl
    · simp only [resolve_optimization_space, if_pos hs]

theorem grid_on_fallback_eval :
    (grid_based_placement (boxR 0 0 (26 / 5) (26 / 5)) [⟨2, 2, 4, "small"⟩] (1 / 4) none
      (6 / 5)).islands.length = 1 := by
  norm_num [grid_based_placement, arangeQ, gridPlaceLoop, is_valid_placement,
    rectContains, Rect.area, boxR, IlotSpec.width, List.range, List.range.loop,
    List.flatMap, Int.toNat_one]

/-- C6 counterexample: an empty optimization space with walls of bounds
(0,0)-(5.2,5.2) is replaced by the walls' bounds box — not an empty
result — and the grid strategy the pipeline then runs places an island
in it, so the intelligent pipeline does not return the empty layout
(islands = []) on an empty usable area. -/
theorem C6_empty_space_fallback_places_islands :
    resolve_optimization_space none (some (boxR 0 0 (26 / 5) (26 / 5))) =
      boxR 0 0 (26 / 5) (26 / 5) ∧
    (grid_based_placement (boxR 0 0 (26 / 5) (26 / 5)) [⟨2, 2, 4, "small"⟩] (1 / 4) none
      (6 / 5)).islands.length = 1 :=
  ⟨rfl, grid_on_fallback_eval⟩

/-- C6 witness: the short-circuit applied to concrete inputs, and the
fallback resolution applied to a degenerate 0-area space with given
wall bounds. -/
theorem C6_empty_area_short_circuit_witness :
    optimize_layout none (fun _ _ => []) (fun _ _ _ => []) [(2, 2)] (6 / 5) (1 / 4) =
      ⟨[], [], none⟩ ∧
    resolve_optimization_space (some (boxR 0 0 0 0)) (some (boxR 0 0 9 9)) =
      boxR 0 0 9 9 :=
  ⟨C6_empty_area_short_circuit.1 (fun _ _ => []) (fun _ _ _ => []) [(2, 2)] (6 / 5) (1 / 4),
   C6_empty_area_short_circuit.2 (some (boxR 0 0 0 0)) (some (boxR 0 0 9 9))
     (Or.inr ⟨boxR 0 0 0 0, rfl, by norm_num [Rect.area, boxR]⟩)⟩

/-! ## `AdvancedGeometryProcessor._calculate_usable_areas`
(`Backup/geometry/advanced_processor.py`, lines 335-388) -/

/-- The result dict of `_calculate_usable_areas`. -/
structure UsableAreas where
  usable_area : Option Rect
  rooms : List Rect
  total_usable_area : ℚ
deriving DecidableEq, Repr

/-- Python `max(rooms, key=lambda p: p.area)`: the first maximal
element. -/
def maxByArea : List Rect → Option Rect
  | [] => none
  | r :: rest => some (rest.foldl (fun m q => if m.area < q.area then q else m) r)

/-- `_calculate_usable_areas` downstream of the boolean subtractions:
the `make_valid`-ed geometry is the `parts` list (the subtraction,
union and repair primitives are the external geometry library's).  A
`MultiPolygon` (at least two parts) keeps every part of at least
`min_room_area` in `rooms` but collapses `usable_area` to the largest
room — empty when none qualifies; a single `Polygon` is kept whole when
big enough; an empty geometry yields the empty result. -/
def calculate_usable_areas (parts : List Rect) (min_room_area : ℚ) : UsableAreas :=
  match parts with
  | [] => ⟨none, [], 0⟩
  | [p] =>
    if min_room_area ≤ p.area then ⟨some p, [p], p.area⟩
    else ⟨none, [], 0⟩
  | _ =>
    let rooms := parts.filter (fun p => min_room_area ≤ p.area)
    match maxByArea rooms with
    | some big => ⟨some big, rooms, (rooms.map Rect.area).sum⟩
    | none => ⟨none, [], 0⟩

theorem maxByArea_spec :
    ∀ (l : List Rect) (m : Rect), maxByArea l = some m →
      m ∈ l ∧ ∀ q ∈ l, q.area ≤ m.area := by
  have aux : ∀ (rest : List Rect) (acc : Rect),
      (rest.foldl (fun m q => if m.area < q.area then q else m) acc) ∈ acc :: rest ∧
      acc.area ≤ (rest.foldl (fun m q => if m.area < q.area then q else m) acc).area ∧
      ∀ q ∈ rest, q.area ≤ (rest.foldl (fun m q => if m.area < q.area then q else m) acc).area := by
    intro rest
    induction rest with
    | nil => intro acc; exact ⟨List.mem_singleton.mpr rfl, le_refl _, by simp⟩
    | cons r t ih =>
      intro acc
      simp only [List.foldl_cons]
      by_cases hlt : acc.area < r.area
      · rw [if_pos hlt]
        have h := ih r
        refine ⟨List.mem_cons_of_mem acc h.1, le_trans (le_of_lt hlt) h.2.1, ?_⟩
        intro q hq
        rcases List.mem_cons.mp hq with rfl | hq'
        · exact h.2.1
        · exact h.2.2 q hq'
      · rw [if_neg hlt]
        have h := ih acc
        refine ⟨?_, h.2.1, ?_⟩
        · rcases List.mem_cons.mp h.1 with heq | hm
          · rw [heq]
            exact List.mem_cons_self _ _
          · exact List.mem_cons_of_mem acc (List.mem_cons_of_mem r hm)
        · intro q hq
          rcases List.mem_cons.mp hq with rfl | hq'
          · exact le_trans (le_of_not_lt hlt) h.2.1
          · exact h.2.2 q hq'
  intro l m hm
  cases l with
  | nil => exact absurd hm (by simp [maxByArea])
  | cons r rest =>
    simp only [maxByArea, Option.some.injEq] at hm
    subst hm
    refine ⟨(aux rest r).1, ?_⟩
    intro q hq
    rcases List.mem_cons.mp hq with rfl | hq'
    · exact (aux rest q).2.1
    · exact (aux rest r).2.2 q hq'

/-- C7 (amended): the fragment filter keeps **in the `rooms` list**
exactly the parts whose area reaches the minimum-room-area threshold,
and `total_usable_area` sums exactly those; but the `usable_area` field
itself is never multi-part — whenever it is non-empty it is a single
kept room of maximal area (the first such on ties), so the other
above-threshold parts are dropped from the usable area
(see `C7_second_room_dropped`). -/
theorem C7_rooms_filtered_usable_single (parts : List Rect) (min_room_area : ℚ) :
    (calculate_usable_areas parts min_room_area).rooms =
      parts.filter (fun p => min_room_area ≤ p.area) ∧
    (calculate_usable_areas parts min_room_area).total_usable_area =
      (((calculate_usable_areas parts min_room_area).rooms).map Rect.area).sum ∧
    ∀ r, (calculate_usable_areas parts min_room_area).usable_area = some r →
      r ∈ (calculate_usable_areas parts min_room_area).rooms ∧
      ∀ q ∈ (calculate_usable_areas parts min_room_area).rooms, q.area ≤ r.area := by
  match parts with
  | [] => exact ⟨rfl, rfl, by simp [calculate_usable_areas]⟩
  | [p] =>
    by_cases hp : min_room_area ≤ p.area
    · refine ⟨?_, ?_, ?_⟩
      · simp [calculate_usable_areas, hp, List.filter]
      · simp [calculate_usable_areas, hp]
      · intro r hr
        simp only [calculate_usable_areas, if_pos hp, Option.some.injEq] at hr ⊢
        subst hr
        exact ⟨List.mem_singleton.mpr rfl, by simp⟩
    · refine ⟨?_, ?_, ?_⟩
      · simp [calculate_usable_areas, hp, List.filter]
      · simp [calculate_usable_areas, hp]
      · intro r hr
        simp [calculate_usable_areas, hp] at hr
  | p1 :: p2 :: rest =>
    rcases hmax : maxByArea ((p1 :: p2 :: rest).filter (fun p => min_room_area ≤ p.area))
      with - | big
    · have hfe : (p1 :: p2 :: rest).filter (fun p => min_room_area ≤ p.area) = [] := by
        rcases hf : (p1 :: p2 :: rest).filter (fun p => min_room_area ≤ p.area) with - | ⟨a, t⟩
        · exact hf
        · rw [hf] at hmax
          exact absurd hmax (by simp [maxByArea])
      refine ⟨?_, ?_, ?_⟩
      · simp only [calculate_usable_areas, hmax]
        exact hfe.symm
      · simp only [calculate_usable_areas, hmax]
        rfl
      · intro r hr
        simp only [calculate_usable_areas, hmax] at hr
        exact absurd hr (by simp)
    · refine ⟨?_, ?_, ?_⟩
      · simp only [calculate_usable_areas, hmax]
      · simp only [calculate_usable_areas, hmax]
      · intro r hr
        simp only [calculate_usable_areas, hmax, Option.some.injEq] at hr ⊢
        cases hr
        exact maxByArea_spec _ big hmax

/-- C7 counterexample: two disjoint above-threshold parts of area 9
each (threshold 4).  Both survive into `rooms` and the 18 m² total, but
the returned `usable_area` is only the first part — the second
above-threshold part is not kept in the resulting usable area, which is
never multi-part. -/
theorem C7_second_room_dropped :
    calculate_usable_areas [boxR 0 0 3 3, boxR 10 0 13 3] 4 =
      ⟨some (boxR 0 0 3 3), [boxR 0 0 3 3, boxR 10 0 13 3], 18⟩ ∧
    (calculate_usable_areas [boxR 0 0 3 3, boxR 10 0 13 3] 4).usable_area ≠
      some (boxR 10 0 13 3) := by
  constructor
  · norm_num [calculate_usable_areas, maxByArea, Rect.area, boxR, List.filter]
  · norm_num [calculate_usable_areas, maxByArea, Rect.area, boxR, List.filter]

/-- C7 witness: the amended theorem applied to the two-part input of
the counterexample, with the `usable_area = some …` hypothesis
discharged by evaluation. -/
theorem C7_rooms_filtered_usable_single_witness :
    boxR 0 0 3 3 ∈ (calculate_usable_areas [boxR 0 0 3 3, boxR 10 0 13 3] 4).rooms ∧
    ∀ q ∈ (calculate_usable_areas [boxR 0 0 3 3, boxR 10 0 13 3] 4).rooms,
      q.area ≤ (boxR 0 0 3 3).area :=
  (C7_rooms_filtered_usable_single [boxR 0 0 3 3, boxR 10 0 13 3] 4).2.2
    (boxR 0 0 3 3)
    (by norm_num [calculate_usable_areas, maxByArea, Rect.area, boxR, List.filter])

/-! ## `ProductionFloorPlanEngine` corridor network
(`production_engine.py`, lines 21-34 and 154-265) -/

/-- `config['min_corridor_width']` (line 23); the only width bound the
engine ever reads — and only to emit a non-fatal QA warning. -/
def min_corridor_width : ℚ := 4 / 5

/-- `config['max_corridor_width']` (line 24); defined but never read
anywhere in the engine. -/
def max_corridor_width : ℚ := 3

/-- Symbolic description of `LineString([c1, c2]).buffer(width / 2)`,
the stadium-shaped corridor geometry between two island centroids.  Its
exact area (`2·r·len(c1,c2) + π·r²`) is irrational, so the area the
external geometry library reports is a parameter of the network
generator. -/
structure StadiumGeom where
  p1 : ℚ × ℚ
  p2 : ℚ × ℚ
  halfWidth : ℚ
deriving DecidableEq, Repr

/-- A corridor record of `_generate_corridor_network` (lines 176-184). -/
structure CorridorP where
  id : Nat
  geometry : StadiumGeom
  width : ℚ
  area : ℚ
  connected_islands : List Nat
deriving DecidableEq, Repr

/-- `island['geometry'].centroid`. -/
def Ilot.centroid (i : Ilot) : ℚ × ℚ := (i.geometry.cx, i.geometry.cy)

/-- `ProductionFloorPlanEngine._group_islands_for_corridors` (lines
199-232): the first unprocessed island collects every later island
whose centroid lies within the 15 m corridor length bound; groups of
fewer than two islands are dropped (their members stay processed). -/
def group_islands_for_corridors : List Ilot → List (List Ilot)
  | [] => []
  | i :: rest =>
    let near := rest.filter (fun j => sqDistPt i.centroid j.centroid < 15 ^ 2)
    let far := rest.filter (fun j => ¬ (sqDistPt i.centroid j.centroid < 15 ^ 2))
    (if 2 ≤ (i :: near).length then [i :: near] else []) ++
      group_islands_for_corridors far
termination_by l => l.length
decreasing_by
  simp only [List.length_cons]
  exact Nat.lt_succ_of_le (List.length_filter_le _ _)

/-- `ProductionFloorPlanEngine._create_corridor_between_groups` (lines
234-265): the most distant centroid pair (first strictly-greater wins,
scanned in `i < j` order; squared distances compare identically), then
the centre line buffered by half the width. -/
def create_corridor_between_groups (island_group : List Ilot) (width : ℚ) :
    Option StadiumGeom :=
  let best := (pairsOf island_group).foldl
    (fun acc p =>
      if acc.2 < sqDistPt p.1.centroid p.2.centroid then
        (some (p.1, p.2), sqDistPt p.1.centroid p.2.centroid)
      else acc)
    ((none : Option (Ilot × Ilot)), (0 : ℚ))
  match best.1 with
  | none => none
  | some (i1, i2) => some ⟨i1.centroid, i2.centroid, width / 2⟩

/-- `ProductionFloorPlanEngine._generate_corridor_network` (lines
154-197): group islands, build one corridor per group of at least two
whose geometry area exceeds the 0.5 m² minimum, and record the
requested `corridor_width` in the `width` field verbatim.
`stadiumArea` is the area the geometry library reports for the buffered
line. -/
def generate_corridor_network (stadiumArea : StadiumGeom → ℚ) (islands : List Ilot)
    (corridor_width : ℚ) : List CorridorP :=
  if islands = [] then []
  else
    ((group_islands_for_corridors islands).foldl
      (fun acc group =>
        if 2 ≤ group.length then
          match create_corridor_between_groups group corridor_width with
          | some g =>
            if 1 / 2 < stadiumArea g then
              (acc.1 ++ [⟨acc.2, g, corridor_width, stadiumArea g, group.map Ilot.id⟩],
               acc.2 + 1)
            else acc
          | none => acc
        else acc)
      (([] : List CorridorP), 0)).1

theorem corridor_width_fold_aux (stadiumArea : StadiumGeom → ℚ) (corridor_width : ℚ) :
    ∀ (groups : List (List Ilot)) (acc : List CorridorP × Nat),
      (∀ c ∈ acc.1, c.width = corridor_width) →
      ∀ c ∈ (groups.foldl
        (fun acc group =>
          if 2 ≤ group.length then
            match create_corridor_between_groups group corridor_width with
            | some g =>
              if 1 / 2 < stadiumArea g then
                (acc.1 ++ [⟨acc.2, g, corridor_width, stadiumArea g, group.map Ilot.id⟩],
                 acc.2 + 1)
              else acc
            | none => acc
          else acc) acc).1,
        c.width = corridor_width := by
  intro groups
  induction groups with
  | nil => intro acc hacc c hc; exact hacc c hc
  | cons g rest ih =>
    intro acc hacc c hc
    simp only [List.foldl_cons] at hc
    refine ih _ ?_ c hc
    intro d hd
    by_cases hlen : 2 ≤ g.length
    · rw [if_pos hlen] at hd
      rcases hcor : create_corridor_between_groups g corridor_width with - | geom
      · simp only [hcor] at hd
        exact hacc d hd
      · simp only [hcor] at hd
        by_cases harea : 1 / 2 < stadiumArea geom
        · rw [if_pos harea] at hd
          rcases List.mem_append.mp hd with hd' | hd'
          · exact hacc d hd'
          · have hde : d = ⟨acc.2, geom, corridor_width, stadiumArea geom, g.map Ilot.id⟩ := by
              simpa using hd'
            rw [hde]
        · rw [if_neg harea] at hd
          exact hacc d hd
    · rw [if_neg hlen] at hd
      exact hacc d hd

/-- C9 (amended): the production corridor generator records the
requested corridor width in every output corridor verbatim — no
clamping or rejection takes place anywhere in the core
(`max_corridor_width` is configured but never read), so a width outside
[0.8 m, 3.0 m] flows straight into the output
(see `C9_width_5_not_clamped`); the only guard related to width is a
non-fatal QA warning when a corridor is narrower than 0.8 m. -/
theorem C9_corridor_width_passthrough (stadiumArea : StadiumGeom → ℚ)
    (islands : List Ilot) (corridor_width : ℚ) (c : CorridorP)
    (hc : c ∈ generate_corridor_network stadiumArea islands corridor_width) :
    c.width = corridor_width := by
  rw [generate_corridor_network] at hc
  split at hc
  · exact absurd hc (by simp)
  · exact corridor_width_fold_aux stadiumArea corridor_width
      (group_islands_for_corridors islands) ([], 0) (by simp) c hc

/-- Area model instantiating the external library's buffered-segment
area for the counterexample: the rectangular core `width × length` of
an axis-parallel stadium (a lower bound of the true area; its exact
value is irrelevant — only `> 0.5 m²` is inspected). -/
def stadiumRectArea (g : StadiumGeom) : ℚ :=
  2 * g.halfWidth * (|g.p2.1 - g.p1.1| + |g.p2.2 - g.p1.2|)

/-- C9 counterexample: two islands 6 m apart with requested corridor
width 5.0 m (beyond the 3.0 m maximum).  The engine emits a corridor
whose `width` field is 5.0 — nothing rejected or clamped it. -/
theorem C9_width_5_not_clamped :
    generate_corridor_network stadiumRectArea
      [⟨0, boxR 0 0 2 2, (1, 1), 2, 2, 4, "small"⟩,
       ⟨1, boxR 6 0 8 2, (7, 1), 2, 2, 4, "small"⟩] 5 =
      [⟨0, ⟨(1, 1), (7, 1), 5 / 2⟩, 5, 30, [0, 1]⟩] ∧
    ¬ ((5 : ℚ) ≤ max_corridor_width) := by
  constructor
  · rw [generate_corridor_network, if_neg (List.cons_ne_nil _ _)]
    norm_num [group_islands_for_corridors,
      create_corridor_between_groups, pairsOf, sqDistPt, Ilot.centroid,
      Rect.cx, Rect.cy, boxR, stadiumRectArea, abs_of_nonneg, List.filter]
  · norm_num [max_corridor_width]

/-- C9 witness: the amended theorem applied to the concrete corridor of
the counterexample run at width 2. -/
theorem C9_corridor_width_passthrough_witness :
    (CorridorP.mk 0 ⟨(1, 1), (7, 1), 1⟩ 2 12 [0, 1]).width = 2 :=
  C9_corridor_width_passthrough stadiumRectArea
    [⟨0, boxR 0 0 2 2, (1, 1), 2, 2, 4, "small"⟩,
     ⟨1, boxR 6 0 8 2, (7, 1), 2, 2, 4, "small"⟩] 2
    ⟨0, ⟨(1, 1), (7, 1), 1⟩, 2, 12, [0, 1]⟩
    (by
      rw [generate_corridor_network, if_neg (List.cons_ne_nil _ _)]
      norm_num [group_islands_for_corridors,
        create_corridor_between_groups, pairsOf, sqDistPt, Ilot.centroid,
        Rect.cx, Rect.cy, boxR, stadiumRectArea, abs_of_nonneg, List.filter])
